import Mathlib

/-!
Shallow embedding of the core of `yerel_asistan.py` (PersonalOS personal
assistant backend): the `SecurityManager` sanitization layer, the
`DatabaseManager` store over an embedded SQLite database, and the
post-processing of `CommandManager` subprocess results.

Modelling conventions:
* Python `str` values are modelled as `List Char`; Python string slicing
  `s[:n]` is `List.take n`, `str.strip()` is `pyStrip` below.
* Timestamps (`datetime.datetime.now().isoformat()`) are modelled as `Nat`
  seconds; ISO-8601 strings of a fixed format compare lexicographically in
  the same order as the instants they denote, so SQL comparisons on the
  timestamp columns become `<`/`>` on `Nat`, and 24 hours is `24 * 3600`.
* Row ids produced by `uuid.uuid4()` and the current time are passed in as
  explicit parameters (they are environment inputs of each call).
* A table is a `List` of row structures in insertion order; a SQL
  `SELECT ... WHERE p ORDER BY k LIMIT n` is `List.take n` of a
  `sortBy` of a `List.filter`; `ORDER BY` leaves the relative
  order of rows with equal keys unspecified, and the statements below
  never depend on tie order.
* SQLite's `LIKE` operator (ASCII-case-insensitive, `%`/`_` wildcards,
  `ESCAPE` clause) is given full executable semantics in `likeMatch`.
* The `erisim_sayisi` (access count) columns are carried by the tables
  but never read or updated by any modelled operation, so they are
  omitted from the row structures.
-/

namespace YerelAsistan

/-- Python whitespace characters relevant to `str.strip()`:
space, tab, newline, carriage return, vertical tab, form feed. -/
def pyIsSpace (c : Char) : Bool :=
  c = ' ' || c = '\t' || c = '\n' || c = '\r' || c = '\x0b' || c = '\x0c'

/-- Python `str.strip()`: drop leading and trailing whitespace. -/
def pyStrip (s : List Char) : List Char :=
  ((s.dropWhile pyIsSpace).reverse.dropWhile pyIsSpace).reverse

/-- ASCII lower-casing of a string, used both for Python `str.lower()`
(ASCII fragment) and for SQLite `LIKE` case folding. -/
def lowerL (s : List Char) : List Char := s.map Char.toLower

/-- The deny-list of `SecurityManager.sanitize_command`:
semicolon, ampersand, pipe, backtick, dollar, parentheses, braces,
angle brackets and newline. -/
def dangerous_chars : List Char :=
  [';', '&', '|', '\x60', '$', '(', ')', '\x7b', '\x7d', '<', '>', '\n']

/-- `SecurityManager.sanitize_command`: scan the deny-list in order and
raise `ValueError` (here `.error` carrying the offending character) on the
first deny-list character contained in `cmd`; otherwise return
`cmd.strip()`. -/
def sanitize_command (cmd : List Char) : Except Char (List Char) :=
  match dangerous_chars.find? (fun ch => cmd.contains ch) with
  | some ch => .error ch
  | none => .ok (pyStrip cmd)

/-- All suffixes of a string, longest first, ending with the empty one. -/
def suffixes : List Char → List (List Char)
  | [] => [[]]
  | c :: t => (c :: t) :: suffixes t

/-- SQLite `LIKE` compares characters ASCII-case-insensitively. -/
def likeCharEq (a b : Char) : Bool := a.toLower == b.toLower

/-- Executable semantics of the SQLite `LIKE` operator with `ESCAPE '\'`:
`%` matches any sequence (equivalently, the rest of the pattern matches
some suffix of the text), `_` any single character, a backslash escapes
the next pattern character, and plain characters compare
case-insensitively (ASCII). First argument is the pattern, second the
text. -/
def likeMatch : List Char → List Char → Bool
  | [], t => t.isEmpty
  | '%' :: p, t => (suffixes t).any (fun t2 => likeMatch p t2)
  | '\\' :: p, t =>
    match p, t with
    | pc2 :: p2, c :: t2 => likeCharEq pc2 c && likeMatch p2 t2
    | _, _ => false
  | '_' :: p, t =>
    match t with
    | [] => false
    | _ :: t2 => likeMatch p t2
  | pc :: p, t =>
    match t with
    | [] => false
    | c :: t2 => likeCharEq pc c && likeMatch p t2

/-- Python `str.replace(needle, repl)` for a one-character needle. -/
def pyReplaceChar (needle : Char) (repl : List Char) : List Char → List Char
  | [] => []
  | c :: cs => (if c = needle then repl else [c]) ++ pyReplaceChar needle repl cs

/-- `SecurityManager.sanitize_sql_like`: an empty (falsy) query returns
the empty string; otherwise escape backslash, then percent, then
underscore, and wrap the result in `%...%`. -/
def sanitize_sql_like (sorgu : List Char) : List Char :=
  if sorgu.isEmpty then []
  else
    let s1 := pyReplaceChar '\\' ['\\', '\\'] sorgu
    let s2 := pyReplaceChar '%' ['\\', '%'] s1
    let s3 := pyReplaceChar '_' ['\\', '_'] s2
    '%' :: (s3 ++ ['%'])

/-- Per-character effect of the three sequential replaces: each LIKE
metacharacter receives a backslash escape. -/
def escChar (c : Char) : List Char :=
  if c = '\\' || c = '%' || c = '_' then ['\\', c] else [c]

/-- The escaped form of a query, character by character. -/
def escL (q : List Char) : List Char := q.flatMap escChar

/-- Case-insensitive (ASCII) prefix test. -/
def prefixCI : List Char → List Char → Bool
  | [], _ => true
  | _ :: _, [] => false
  | a :: q, b :: t => likeCharEq a b && prefixCI q t

/-- Case-insensitive (ASCII) substring test. -/
def subCI (q : List Char) : List Char → Bool
  | [] => prefixCI q []
  | c :: t => prefixCI q (c :: t) || subCI q t

/-- Insert `x` into a sorted list: `x` goes after every leading element
`y` with `le y x`. Together with `sortBy` this models a SQL `ORDER BY`
(ties may land in either order, and nothing below depends on tie
order). -/
def insertBy {α : Type} (le : α → α → Bool) (x : α) : List α → List α
  | [] => [x]
  | y :: ys => if le y x then y :: insertBy le x ys else x :: y :: ys

/-- Insertion sort by a Boolean order; structurally recursive so that
closed instances evaluate inside the kernel. -/
def sortBy {α : Type} (le : α → α → Bool) : List α → List α
  | [] => []
  | x :: xs => insertBy le x (sortBy le xs)

/-- Row of the `kisa_sureli` (short-term memory) table. -/
structure KisaRow where
  id : List Char
  icerik : List Char
  metadata : List Char
  son_erisim : Nat
  olusturma : Nat
  bitis : Nat
deriving DecidableEq

/-- Row of the `uzun_sureli` (long-term memory) table; `etiketler` holds
the `json.dumps` serialization of the tag list. -/
structure UzunRow where
  id : List Char
  icerik : List Char
  metadata : List Char
  etiketler : List Char
  onem : Int
  olusturma : Nat
deriving DecidableEq

/-- Row of the `ogrenilen` (learned answers) table; the autoincrement id
column plays no role in any modelled operation and is omitted. -/
structure OgrenRow where
  soru : List Char
  yanit : List Char
  olusturma : Nat
deriving DecidableEq

/-- Row of the `gorevler` (tasks) table. -/
structure GorevRow where
  id : Nat
  baslik : List Char
  aciklama : List Char
  oncelik : List Char
  durum : List Char
  olusturma : Nat
  tamamlanma : Option Nat
deriving DecidableEq

/-- Row of the `oturumlar` (sessions) table. -/
structure OturumRow where
  id : List Char
  isim : List Char
  proje_yolu : List Char
  olusturma : Nat
  mod : List Char
deriving DecidableEq

/-- Row of the `mesajlar` (messages) table. -/
structure MesajRow where
  id : Nat
  oturum_id : List Char
  rol : List Char
  icerik : List Char
  zaman : Nat
deriving DecidableEq

/-- `DatabaseManager.kisa_ekle`: insert a short-term row whose `bitis`
(expiry) column is the creation instant plus 24 hours. Returns the new
id and the updated table. -/
def kisa_ekle (newId : List Char) (now : Nat) (icerik meta : List Char)
    (store : List KisaRow) : List Char × List KisaRow :=
  (newId, store ++ [⟨newId, icerik, meta, now, now, now + 24 * 3600⟩])

/-- SQL `ORDER BY olusturma DESC` for short-term rows. -/
def kisaDesc (a b : KisaRow) : Bool := decide (b.olusturma ≤ a.olusturma)

/-- `DatabaseManager.kisa_getir`:
`SELECT * FROM kisa_sureli WHERE bitis > now ORDER BY olusturma DESC LIMIT limit`. -/
def kisa_getir (now : Nat) (limit : Nat) (store : List KisaRow) : List KisaRow :=
  sortBy kisaDesc (store.filter (fun r => decide (now < r.bitis))) |>.take limit

/-- `DatabaseManager.kisa_temizle`:
`DELETE FROM kisa_sureli WHERE bitis < now`, returning the number of
deleted rows (`cur.rowcount`) and the remaining table. -/
def kisa_temizle (now : Nat) (store : List KisaRow) : Nat × List KisaRow :=
  ((store.filter (fun r => decide (r.bitis < now))).length,
   store.filter (fun r => !decide (r.bitis < now)))

/-- `DatabaseManager.uzun_ekle`: importance (`onem`) outside `[1, 10]`
raises `ValueError` before any database access; otherwise a fresh row is
inserted. Returns the call result together with the table, which is
unchanged on failure. -/
def uzun_ekle (newId : List Char) (now : Nat) (icerik etiketler : List Char)
    (onem : Int) (meta : List Char) (store : List UzunRow) :
    Except (List Char) (List Char) × List UzunRow :=
  if ¬(1 ≤ onem ∧ onem ≤ 10) then
    (.error "Önem 1-10 arası olmalı".toList, store)
  else
    (.ok newId, store ++ [⟨newId, icerik, meta, etiketler, onem, now⟩])

/-- SQL `ORDER BY onem DESC, olusturma DESC` as a total Boolean order. -/
def rankLe (a b : UzunRow) : Bool :=
  decide (b.onem < a.onem ∨ (a.onem = b.onem ∧ b.olusturma ≤ a.olusturma))

/-- SQL `ORDER BY onem DESC` alone. -/
def onemLe (a b : UzunRow) : Bool := decide (b.onem ≤ a.onem)

/-- `DatabaseManager.uzun_ara`:
`SELECT * FROM uzun_sureli WHERE icerik LIKE pat ESCAPE '\' OR etiketler
LIKE pat ESCAPE '\' ORDER BY onem DESC, olusturma DESC LIMIT 50` with
`pat = sanitize_sql_like(sorgu)`. -/
def uzun_ara (sorgu : List Char) (store : List UzunRow) : List UzunRow :=
  let pat := sanitize_sql_like sorgu
  (sortBy rankLe (store.filter
    (fun r => likeMatch pat r.icerik || likeMatch pat r.etiketler))).take 50

/-- `DatabaseManager.uzun_getir`: with a tag list, for each tag yield
`SELECT * FROM uzun_sureli WHERE etiketler LIKE '%"tag"%' ORDER BY onem
DESC LIMIT limit` (the tag is interpolated into the pattern unescaped,
wrapped in double quotes); without tags, all rows ordered by importance
then creation descending, limited. -/
def uzun_getir (etiketler : List (List Char)) (limit : Nat)
    (store : List UzunRow) : List UzunRow :=
  if etiketler.isEmpty then (sortBy rankLe store).take limit
  else
    etiketler.flatMap (fun tag =>
      (sortBy onemLe (store.filter (fun r =>
        likeMatch ('%' :: (('"' :: (tag ++ ['"'])) ++ ['%'])) r.etiketler))).take limit)

/-- Normalization applied by `DatabaseManager.ogren` to the question:
`soru.lower().strip()` (ASCII fragment of `str.lower`). -/
def normalizeSoru (soru : List Char) : List Char := pyStrip (lowerL soru)

/-- Effect of `INSERT OR REPLACE INTO ogrenilen ...` against the UNIQUE
`soru` column: any existing row with the same normalized question is
replaced; the fresh row carries the new answer. -/
def ogren_upsert (store : List OgrenRow) (soru yanit : List Char) (now : Nat) :
    List OgrenRow :=
  store.filter (fun r => decide (r.soru ≠ normalizeSoru soru)) ++
    [⟨normalizeSoru soru, yanit, now⟩]

/-- `DatabaseManager.ogren`: the `try`/`except` around the insert turns
any storage exception (modelled by the `err` oracle: `some` means the
statement raised) into a `False` return with the table unchanged; on
success it upserts and returns `True`. -/
def ogren (err : Option (List Char)) (store : List OgrenRow)
    (soru yanit : List Char) (now : Nat) : Bool × List OgrenRow :=
  match err with
  | some _ => (false, store)
  | none => (true, ogren_upsert store soru yanit now)

/-- `DatabaseManager.gorev_tamamla`:
`UPDATE gorevler SET durum='tamamlandi', tamamlanma=now WHERE id=?`.
No check that the id exists; an unmatched id updates zero rows and the
call returns normally. -/
def gorev_tamamla (now : Nat) (id : Nat) (store : List GorevRow) :
    List GorevRow :=
  store.map (fun r =>
    if r.id = id then
      { r with durum := "tamamlandi".toList, tamamlanma := some now }
    else r)

/-- `DatabaseManager.gorev_sil`: `DELETE FROM gorevler WHERE id=?`.
No check that the id exists; an unmatched id deletes zero rows and the
call returns normally. -/
def gorev_sil (id : Nat) (store : List GorevRow) : List GorevRow :=
  store.filter (fun r => decide (r.id ≠ id))

/-- The foreign-key state of a SQLite connection. -/
structure SQLiteConn where
  foreign_keys : Bool
deriving DecidableEq

/-- `DatabaseManager._get_connection` opens the SQLite connection with
`check_same_thread=False` and a 30-second busy timeout only; it never
executes `PRAGMA foreign_keys = ON`, and SQLite foreign-key enforcement
defaults to OFF, so the `ON DELETE CASCADE` action declared on
`mesajlar.oturum_id` never fires on this connection. -/
def get_connection : SQLiteConn := ⟨false⟩

/-- `DatabaseManager.oturum_olustur`: insert a session row (mode
`build`). -/
def oturum_olustur (newId : List Char) (now : Nat) (isim proje : List Char)
    (sessions : List OturumRow) : List OturumRow :=
  sessions ++ [⟨newId, isim, proje, now, "build".toList⟩]

/-- The AUTOINCREMENT id for the next message row. -/
def nextMesajId (msgs : List MesajRow) : Nat :=
  (msgs.map (fun m => m.id)).foldr max 0 + 1

/-- `DatabaseManager.oturum_mesaj_ekle`: reject roles outside the enum,
otherwise append a message row. -/
def oturum_mesaj_ekle (oid rol icerik : List Char) (now : Nat)
    (msgs : List MesajRow) : Except (List Char) (List MesajRow) :=
  if rol = "user".toList ∨ rol = "assistant".toList ∨ rol = "system".toList then
    .ok (msgs ++ [⟨nextMesajId msgs, oid, rol, icerik, now⟩])
  else
    .error "Rol user/assistant/system olmalı".toList

/-- SQL `ORDER BY zaman DESC` for messages. -/
def mesajDesc (a b : MesajRow) : Bool := decide (b.zaman ≤ a.zaman)

/-- `DatabaseManager.oturum_mesajlari`:
`SELECT * FROM mesajlar WHERE oturum_id = ? ORDER BY zaman DESC LIMIT ?`. -/
def oturum_mesajlari (oid : List Char) (limit : Nat) (msgs : List MesajRow) :
    List MesajRow :=
  (sortBy mesajDesc (msgs.filter (fun m => m.oturum_id == oid))).take limit

/-- Modelled from the spec: the source has no session-delete operation
(only the schema's `ON DELETE CASCADE` declaration on `mesajlar` and the
spec's cascade requirement); this models `DELETE FROM oturumlar WHERE
id = ?` issued on a `DatabaseManager` connection under SQLite semantics:
the declared cascade removes the session's messages only when the
connection has foreign-key enforcement enabled. -/
def delete_session (conn : SQLiteConn) (sid : List Char)
    (sessions : List OturumRow) (msgs : List MesajRow) :
    List OturumRow × List MesajRow :=
  (sessions.filter (fun s => decide (s.id ≠ sid)),
   if conn.foreign_keys then msgs.filter (fun m => decide (m.oturum_id ≠ sid))
   else msgs)

/-- Captured outcome of a completed subprocess. -/
structure ProcResult where
  stdout : List Char
  stderr : List Char
  returncode : Int
deriving DecidableEq

/-- Post-processing of `CommandManager.powershell` once the subprocess
has completed (timeout and exception paths return other fixed strings
and are outside this model): a non-zero exit code yields
`"Hata (kod N): "` followed by the first 200 characters of the stripped
standard error; a zero exit code yields the first 2000 characters of the
stripped standard output. -/
def powershell_result (r : ProcResult) : List Char :=
  let output := pyStrip r.stdout
  let error := pyStrip r.stderr
  if r.returncode ≠ 0 then
    "Hata (kod ".toList ++ (toString r.returncode).toList ++ "): ".toList ++
      error.take 200
  else
    output.take 2000

/-- Post-processing of `CommandManager.opencode` once the subprocess has
completed: the concatenation of standard output and standard error is
truncated to 1500 characters (or a fixed placeholder when empty); the
exit code is never consulted. -/
def opencode_result (r : ProcResult) : List Char :=
  let output := r.stdout ++ r.stderr
  if output.isEmpty then "Sonuç yok".toList else output.take 1500

/-- Concrete short-term row that is still live at instant 10, for C3. -/
def k1Row : KisaRow :=
  ⟨"k1".toList, "alpha".toList, "\x7b\x7d".toList, 1, 1, 20⟩

/-- Concrete short-term row already expired at instant 10, for C3. -/
def k2Row : KisaRow :=
  ⟨"k2".toList, "beta".toList, "\x7b\x7d".toList, 2, 2, 5⟩

/-- Concrete long-term row with lowercase-only content, for C6. -/
def milkRow : UzunRow :=
  ⟨"id1".toList, "milk for breakfast".toList, "\x7b\x7d".toList,
   "[]".toList, 7, 0⟩

/-- Concrete long-term row with stored tag list `["os"]`, for C7. -/
def osRow : UzunRow :=
  ⟨"id2".toList, "notes".toList, "\x7b\x7d".toList, "[\"os\"]".toList, 5, 0⟩

/-- Concrete long-term row with stored tag list `["posix"]`, for C7. -/
def posixRow : UzunRow :=
  ⟨"id3".toList, "notes".toList, "\x7b\x7d".toList, "[\"posix\"]".toList, 5, 0⟩

/-- Concrete task row, for C10. -/
def taskRow : GorevRow :=
  ⟨1, "görev".toList, [], "orta".toList, "bekliyor".toList, 0, none⟩

/-- C1 scenario: the session table after creating session `s1`. -/
def c1_sessions : List OturumRow :=
  oturum_olustur "s1".toList 0 "oturum-s1".toList "/proj".toList []

/-- C1 scenario: the message table after appending three messages to
session `s1`. -/
def c1_messages : List MesajRow :=
  ((((oturum_mesaj_ekle "s1".toList "user".toList "m1".toList 1 []).bind
      (oturum_mesaj_ekle "s1".toList "assistant".toList "m2".toList 2)).bind
      (oturum_mesaj_ekle "s1".toList "user".toList "m3".toList 3)).toOption).getD []

/- ===================== Helper lemmas ===================== -/

theorem pyReplaceChar_append (n : Char) (r a b : List Char) :
    pyReplaceChar n r (a ++ b) = pyReplaceChar n r a ++ pyReplaceChar n r b := by
  induction a with
  | nil => rfl
  | cons c cs ih => simp [pyReplaceChar, ih]

/-- The three sequential replaces of `sanitize_sql_like` amount to
escaping each metacharacter once. -/
theorem replace3_eq_escL (s : List Char) :
    pyReplaceChar '_' ['\\', '_']
      (pyReplaceChar '%' ['\\', '%'] (pyReplaceChar '\\' ['\\', '\\'] s)) = escL s := by
  induction s with
  | nil => rfl
  | cons c cs ih =>
    have hhead : pyReplaceChar '_' ['\\', '_']
        (pyReplaceChar '%' ['\\', '%']
          (pyReplaceChar '\\' ['\\', '\\'] [c])) = escChar c := by
      by_cases h1 : c = '\\'
      · subst h1; rfl
      · by_cases h2 : c = '%'
        · subst h2; rfl
        · by_cases h3 : c = '_'
          · subst h3; rfl
          · simp [pyReplaceChar, escChar, h1, h2, h3]
    calc pyReplaceChar '_' ['\\', '_']
          (pyReplaceChar '%' ['\\', '%'] (pyReplaceChar '\\' ['\\', '\\'] ([c] ++ cs)))
        = pyReplaceChar '_' ['\\', '_']
            (pyReplaceChar '%' ['\\', '%'] (pyReplaceChar '\\' ['\\', '\\'] [c])) ++
          pyReplaceChar '_' ['\\', '_']
            (pyReplaceChar '%' ['\\', '%'] (pyReplaceChar '\\' ['\\', '\\'] cs)) := by
          rw [pyReplaceChar_append, pyReplaceChar_append, pyReplaceChar_append]
      _ = escChar c ++ escL cs := by rw [hhead, ih]
      _ = escL (c :: cs) := by simp [escL]

theorem nil_mem_suffixes (t : List Char) : [] ∈ suffixes t := by
  induction t with
  | nil => simp [suffixes]
  | cons c t2 ih => simp [suffixes, ih]

theorem likeMatch_pct_all (t : List Char) : likeMatch ['%'] t = true := by
  simp only [likeMatch, List.any_eq_true]
  exact ⟨[], nil_mem_suffixes t, rfl⟩

/-- A fully escaped query followed by a trailing `%` matches a text
exactly when the query is a case-insensitive prefix of the text. -/
theorem likeMatch_escL_pct (q : List Char) :
    ∀ t, likeMatch (escL q ++ ['%']) t = prefixCI q t := by
  induction q with
  | nil =>
    intro t
    simpa [escL, prefixCI] using likeMatch_pct_all t
  | cons a q' ih =>
    intro t
    by_cases hm : a = '\\' ∨ a = '%' ∨ a = '_'
    · have hesc : escChar a = ['\\', a] := by
        rcases hm with h | h | h <;> simp [escChar, h]
      have hpat : escL (a :: q') ++ ['%'] = '\\' :: a :: (escL q' ++ ['%']) := by
        simp [escL, hesc]
      rw [hpat]
      cases t with
      | nil => simp [likeMatch, prefixCI]
      | cons c t2 => simp [likeMatch, prefixCI, ih t2]
    · push_neg at hm
      obtain ⟨h1, h2, h3⟩ := hm
      have hesc : escChar a = [a] := by simp [escChar, h1, h2, h3]
      have hpat : escL (a :: q') ++ ['%'] = a :: (escL q' ++ ['%']) := by
        simp [escL, hesc]
      rw [hpat]
      cases t with
      | nil => simp [likeMatch, prefixCI, h1, h2, h3]
      | cons c t2 => simp [likeMatch, prefixCI, h1, h2, h3, ih t2]

theorem any_prefixCI_suffixes (q : List Char) :
    ∀ t, (suffixes t).any (fun t2 => prefixCI q t2) = subCI q t := by
  intro t
  induction t with
  | nil => simp [suffixes, subCI]
  | cons c t2 ih => simp [suffixes, subCI, ih]

/-- The pattern `sanitize_sql_like` builds for a query matches a text
exactly when the query occurs in the text, case-insensitively. -/
theorem likeMatch_wrapped (q t : List Char) :
    likeMatch ('%' :: (escL q ++ ['%'])) t = subCI q t := by
  simp only [likeMatch, likeMatch_escL_pct]
  exact any_prefixCI_suffixes q t

theorem prefixCI_iff (q : List Char) :
    ∀ t, prefixCI q t = true ↔ lowerL q <+: lowerL t := by
  induction q with
  | nil => intro t; simp [prefixCI, lowerL]
  | cons a q' ih =>
    intro t
    cases t with
    | nil => simp [prefixCI, lowerL]
    | cons b t' =>
      simp [prefixCI, likeCharEq, lowerL, List.cons_prefix_cons, ih t',
        Bool.and_eq_true, beq_iff_eq]

theorem subCI_iff (q : List Char) :
    ∀ t, subCI q t = true ↔ lowerL q <:+: lowerL t := by
  intro t
  induction t with
  | nil =>
    simp [subCI, prefixCI_iff, lowerL]
  | cons c t' ih =>
    simp [subCI, Bool.or_eq_true, prefixCI_iff, ih, lowerL, List.infix_cons_iff]

theorem subCI_eq_decide (q t : List Char) :
    subCI q t = decide (lowerL q <:+: lowerL t) := by
  cases hb : subCI q t
  · have hn : ¬ lowerL q <:+: lowerL t := fun hP => by
      rw [(subCI_iff q t).mpr hP] at hb
      cases hb
    simp [hn]
  · have hP := (subCI_iff q t).mp hb
    simp [hP]

/-- A query with no LIKE metacharacters is unchanged by escaping. -/
theorem escL_of_clean (q : List Char)
    (h : ∀ c ∈ q, ¬(c = '\\' ∨ c = '%' ∨ c = '_')) : escL q = q := by
  induction q with
  | nil => rfl
  | cons c cs ih =>
    have hc := h c (by simp)
    push_neg at hc
    obtain ⟨h1, h2, h3⟩ := hc
    have hone : escChar c = [c] := by simp [escChar, h1, h2, h3]
    simp only [escL, List.flatMap_cons, hone]
    simpa [escL] using ih fun d hd => h d (by simp [hd])

theorem rankLe_trans (a b c : UzunRow) :
    rankLe a b = true → rankLe b c = true → rankLe a c = true := by
  simp only [rankLe, decide_eq_true_eq]
  omega

theorem rankLe_total (a b : UzunRow) : (rankLe a b || rankLe b a) = true := by
  simp only [rankLe, Bool.or_eq_true, decide_eq_true_eq]
  omega

theorem onemLe_trans (a b c : UzunRow) :
    onemLe a b = true → onemLe b c = true → onemLe a c = true := by
  simp only [onemLe, decide_eq_true_eq]
  omega

theorem onemLe_total (a b : UzunRow) : (onemLe a b || onemLe b a) = true := by
  simp only [onemLe, Bool.or_eq_true, decide_eq_true_eq]
  omega

theorem kisaDesc_trans (a b c : KisaRow) :
    kisaDesc a b = true → kisaDesc b c = true → kisaDesc a c = true := by
  simp only [kisaDesc, decide_eq_true_eq]
  omega

theorem kisaDesc_total (a b : KisaRow) : (kisaDesc a b || kisaDesc b a) = true := by
  simp only [kisaDesc, Bool.or_eq_true, decide_eq_true_eq]
  omega

theorem mem_insertBy {α : Type} (le : α → α → Bool) (x a : α) :
    ∀ l : List α, a ∈ insertBy le x l ↔ a = x ∨ a ∈ l := by
  intro l
  induction l with
  | nil => simp [insertBy]
  | cons y ys ih =>
    by_cases hle : le y x
    · simp only [insertBy, if_pos hle, List.mem_cons, ih]
      tauto
    · simp only [insertBy, if_neg hle, List.mem_cons]

theorem length_insertBy {α : Type} (le : α → α → Bool) (x : α) :
    ∀ l : List α, (insertBy le x l).length = l.length + 1 := by
  intro l
  induction l with
  | nil => rfl
  | cons y ys ih =>
    by_cases hle : le y x
    · simp [insertBy, if_pos hle, ih]
    · simp [insertBy, if_neg hle]

theorem mem_sortBy {α : Type} (le : α → α → Bool) (a : α) :
    ∀ l : List α, a ∈ sortBy le l ↔ a ∈ l := by
  intro l
  induction l with
  | nil => simp [sortBy]
  | cons x xs ih => simp [sortBy, mem_insertBy, ih]

theorem length_sortBy {α : Type} (le : α → α → Bool) :
    ∀ l : List α, (sortBy le l).length = l.length := by
  intro l
  induction l with
  | nil => rfl
  | cons x xs ih => simp [sortBy, length_insertBy, ih]

theorem pairwise_insertBy {α : Type} (le : α → α → Bool)
    (htrans : ∀ a b c, le a b = true → le b c = true → le a c = true)
    (htot : ∀ a b, (le a b || le b a) = true) (x : α) :
    ∀ l : List α, l.Pairwise (fun a b => le a b = true) →
      (insertBy le x l).Pairwise (fun a b => le a b = true) := by
  intro l
  induction l with
  | nil => intro _; simp [insertBy]
  | cons y ys ih =>
    intro hl
    rcases List.pairwise_cons.mp hl with ⟨hy, hys⟩
    by_cases hle : le y x
    · simp only [insertBy, if_pos hle]
      refine List.pairwise_cons.mpr ⟨?_, ih hys⟩
      intro z hz
      rcases (mem_insertBy le x z ys).mp hz with rfl | hz'
      · exact hle
      · exact hy z hz'
    · simp only [insertBy, if_neg hle]
      have hxy : le x y = true := by
        rcases (by simpa using htot x y : le x y = true ∨ le y x = true) with h | h
        · exact h
        · exact absurd h hle
      refine List.pairwise_cons.mpr ⟨?_, List.pairwise_cons.mpr ⟨hy, hys⟩⟩
      intro z hz
      rcases List.mem_cons.mp hz with rfl | hz'
      · exact hxy
      · exact htrans x y z hxy (hy z hz')

theorem pairwise_sortBy {α : Type} (le : α → α → Bool)
    (htrans : ∀ a b c, le a b = true → le b c = true → le a c = true)
    (htot : ∀ a b, (le a b || le b a) = true) :
    ∀ l : List α, (sortBy le l).Pairwise (fun a b => le a b = true) := by
  intro l
  induction l with
  | nil => simp [sortBy]
  | cons x xs ih => exact pairwise_insertBy le htrans htot x _ ih

theorem filter_split_length {α : Type} (p : α → Bool) :
    ∀ l : List α, (l.filter p).length + (l.filter (fun a => !p a)).length = l.length := by
  intro l
  induction l with
  | nil => rfl
  | cons x xs ih =>
    by_cases hp : p x
    · simp [List.filter_cons, hp, ← ih]
      omega
    · simp only [List.filter_cons, hp, Bool.false_eq_true, if_false, Bool.not_false,
        if_true, List.length_cons, List.length]
      omega

/- ===================== Claim theorems ===================== -/

/-- Claim C2: `sanitize_command` fails exactly when the command contains
a deny-list character, and on deny-list-free commands returns the
command stripped of surrounding whitespace but otherwise unchanged. -/
theorem c2_sanitize_command (cmd : List Char) :
    ((sanitize_command cmd).isOk = false ↔ ∃ c ∈ cmd, c ∈ dangerous_chars) ∧
    ((∀ c ∈ cmd, c ∉ dangerous_chars) → sanitize_command cmd = .ok (pyStrip cmd)) := by
  have key : (∃ ch ∈ dangerous_chars, cmd.contains ch) ↔ ∃ c ∈ cmd, c ∈ dangerous_chars := by
    constructor
    · rintro ⟨ch, hd, hc⟩
      exact ⟨ch, by simpa using hc, hd⟩
    · rintro ⟨c, hc, hd⟩
      exact ⟨c, hd, by simpa using hc⟩
  constructor
  · unfold sanitize_command
    rcases h : dangerous_chars.find? (fun ch => cmd.contains ch) with _ | ch
    · rw [List.find?_eq_none] at h
      simp only [Except.isOk, Except.toBool]
      constructor
      · intro hfalse; cases hfalse
      · rintro ⟨c, hc, hd⟩
        exact absurd (by simpa using hc) (by simpa using h c hd)
    · simp only [Except.isOk, Except.toBool]
      constructor
      · intro _
        exact key.mp ⟨ch, List.mem_of_find?_eq_some h, List.find?_some h⟩
      · intro _; trivial
  · intro hclean
    unfold sanitize_command
    rcases h : dangerous_chars.find? (fun ch => cmd.contains ch) with _ | ch
    · rfl
    · exfalso
      have hmem : ch ∈ cmd := by simpa using List.find?_some h
      exact hclean ch hmem (List.mem_of_find?_eq_some h)

/-- Witness for C2 at the concrete input of the spec example:
`sanitize_command "ls -la"` succeeds and returns `"ls -la"` unchanged. -/
theorem c2_sanitize_command_witness :
    sanitize_command "ls -la".toList = .ok "ls -la".toList := by
  have h := (c2_sanitize_command "ls -la".toList).2 (by decide)
  simpa using h

/-- Claim C3: `kisa_ekle` stamps the new row with expiry = creation +
24 hours; `kisa_getir` returns only stored rows whose expiry is strictly
later than now, newest first, capped at the limit, and returns every
live row when they fit within the limit; `kisa_temizle` deletes exactly
the rows whose expiry is strictly earlier than now and returns their
count, keeping all others. -/
theorem c3_short_term_ttl (newId : List Char) (now t limit : Nat)
    (icerik meta : List Char) (store : List KisaRow) :
    (kisa_ekle newId now icerik meta store).2 =
      store ++ [⟨newId, icerik, meta, now, now, now + 24 * 3600⟩] ∧
    (∀ r ∈ kisa_getir t limit store, r ∈ store ∧ t < r.bitis) ∧
    (kisa_getir t limit store).length ≤ limit ∧
    (kisa_getir t limit store).Pairwise (fun a b => b.olusturma ≤ a.olusturma) ∧
    (∀ r ∈ store, t < r.bitis →
      (store.filter (fun r => decide (t < r.bitis))).length ≤ limit →
      r ∈ kisa_getir t limit store) ∧
    (kisa_temizle t store).2 = store.filter (fun r => decide (t ≤ r.bitis)) ∧
    (kisa_temizle t store).1 + ((kisa_temizle t store).2).length = store.length := by
  refine ⟨rfl, ?_, ?_, ?_, ?_, ?_, ?_⟩
  · intro r hr
    have h1 := List.mem_of_mem_take hr
    have h2 := (mem_sortBy kisaDesc r _).mp h1
    have h3 := List.mem_filter.mp h2
    exact ⟨h3.1, by simpa using h3.2⟩
  · exact List.length_take_le limit _
  · have hp := pairwise_sortBy kisaDesc kisaDesc_trans kisaDesc_total
      (store.filter (fun r => decide (t < r.bitis)))
    have hs := List.Pairwise.sublist (List.take_sublist limit _) hp
    exact hs.imp (fun hab => by simpa [kisaDesc] using hab)
  · intro r hr hlive hlen
    have hlen2 : (sortBy kisaDesc
        (store.filter (fun r => decide (t < r.bitis)))).length ≤ limit := by
      rw [length_sortBy]
      exact hlen
    unfold kisa_getir
    rw [List.take_of_length_le hlen2]
    exact (mem_sortBy _ r _).mpr (List.mem_filter.mpr ⟨hr, by simpa using hlive⟩)
  · unfold kisa_temizle
    refine List.filter_congr ?_
    intro x _
    rcases Nat.lt_or_ge x.bitis t with h | h
    · simp [h, Nat.not_le.mpr h]
    · simp [Nat.not_lt.mpr h, h]
  · exact filter_split_length _ store

/-- Witness for C3: at instant 10 with limit 5, the live row is
returned by `kisa_getir` while the expired one is not blocking it. -/
theorem c3_short_term_ttl_witness :
    k1Row ∈ kisa_getir 10 5 [k1Row, k2Row] :=
  (c3_short_term_ttl "x".toList 0 10 5 "a".toList "\x7b\x7d".toList
    [k1Row, k2Row]).2.2.2.2.1 k1Row (by decide) (by decide) (by decide)

/-- Claim C4: with the unique-question invariant, a successful `ogren`
returns `True`, leaves exactly one row for the normalized
(lower-cased, stripped) question and that row carries the answer just
taught, preserves the invariant; and a failing insert makes `ogren`
return `False` with the table unchanged rather than raising. -/
theorem c4_learn_upsert (store : List OgrenRow) (soru yanit : List Char) (now : Nat)
    (h : store.Pairwise (fun r s => r.soru ≠ s.soru)) :
    (ogren none store soru yanit now).1 = true ∧
    ((ogren none store soru yanit now).2).filter
        (fun r => r.soru == normalizeSoru soru) =
      [⟨normalizeSoru soru, yanit, now⟩] ∧
    ((ogren none store soru yanit now).2).Pairwise (fun r s => r.soru ≠ s.soru) ∧
    (∀ e, ogren (some e) store soru yanit now = (false, store)) := by
  refine ⟨rfl, ?_, ?_, fun e => rfl⟩
  · show (ogren_upsert store soru yanit now).filter _ = _
    unfold ogren_upsert
    rw [List.filter_append, List.filter_filter]
    have h1 : store.filter (fun a => (a.soru == normalizeSoru soru) &&
        decide (a.soru ≠ normalizeSoru soru)) = [] := by
      rw [List.filter_eq_nil_iff]
      intro a _
      by_cases hq : a.soru = normalizeSoru soru <;> simp [hq]
    rw [h1]
    simp
  · show (ogren_upsert store soru yanit now).Pairwise _
    unfold ogren_upsert
    rw [List.pairwise_append]
    refine ⟨h.filter _, by simp, ?_⟩
    intro a ha b hb
    rcases List.mem_filter.mp ha with ⟨_, ha2⟩
    rcases List.mem_singleton.mp hb with rfl
    simpa using ha2

/-- Witness for C4 at the spec example: teaching `"2+2" -> "4"` then
`"2+2" -> "5"` leaves exactly one row for the normalized question and it
holds `"5"`. -/
theorem c4_learn_upsert_witness :
    ((ogren none (ogren none [] "2+2".toList "4".toList 1).2
        "2+2".toList "5".toList 2).2).filter
      (fun r => r.soru == normalizeSoru "2+2".toList) =
    [⟨normalizeSoru "2+2".toList, "5".toList, 2⟩] :=
  (c4_learn_upsert (ogren none [] "2+2".toList "4".toList 1).2
    "2+2".toList "5".toList 2 (by decide)).2.1

/-- Claim C5: for importance outside `[1, 10]`, `uzun_ekle` fails with
the range error and the table is unchanged by the failed call; for
importance within `[1, 10]` the insert succeeds, returns the fresh id,
and appends exactly the new row. -/
theorem c5_uzun_ekle_importance (newId : List Char) (now : Nat)
    (icerik etiketler meta : List Char) (onem : Int) (store : List UzunRow) :
    ((onem < 1 ∨ 10 < onem) →
      uzun_ekle newId now icerik etiketler onem meta store =
        (.error "Önem 1-10 arası olmalı".toList, store)) ∧
    (1 ≤ onem → onem ≤ 10 →
      uzun_ekle newId now icerik etiketler onem meta store =
        (.ok newId, store ++ [⟨newId, icerik, meta, etiketler, onem, now⟩])) := by
  constructor
  · intro hout
    have hcond : ¬(1 ≤ onem ∧ onem ≤ 10) := by omega
    simp [uzun_ekle, hcond]
  · intro h1 h2
    have hcond : 1 ≤ onem ∧ onem ≤ 10 := ⟨h1, h2⟩
    simp [uzun_ekle, hcond]

/-- Witness for C5: importance 11 fails leaving the table unchanged, and
importance 7 succeeds. -/
theorem c5_uzun_ekle_importance_witness :
    uzun_ekle "id9".toList 5 "buy milk".toList "[]".toList 11 "\x7b\x7d".toList [] =
      (.error "Önem 1-10 arası olmalı".toList, []) ∧
    uzun_ekle "id9".toList 5 "buy milk".toList "[]".toList 7 "\x7b\x7d".toList [] =
      (.ok "id9".toList,
       [⟨"id9".toList, "buy milk".toList, "\x7b\x7d".toList, "[]".toList, 7, 5⟩]) := by
  constructor
  · exact (c5_uzun_ekle_importance "id9".toList 5 "buy milk".toList "[]".toList
      "\x7b\x7d".toList 11 []).1 (by decide)
  · simpa using (c5_uzun_ekle_importance "id9".toList 5 "buy milk".toList "[]".toList
      "\x7b\x7d".toList 7 []).2 (by decide) (by decide)

/-- Claim C6 as amended: for every non-empty query, `sanitize_sql_like`
escapes backslash, percent and underscore (in that order) and wraps the
result in wildcards, and `uzun_ara` returns the rows whose content or
serialized tags contain the query as a substring up to ASCII case
(SQLite `LIKE` folds ASCII case), ordered by importance descending then
creation descending, capped at 50 rows. -/
theorem c6_search_long_term (sorgu : List Char) (store : List UzunRow)
    (hne : sorgu ≠ []) :
    sanitize_sql_like sorgu = '%' :: (escL sorgu ++ ['%']) ∧
    uzun_ara sorgu store =
      (sortBy rankLe (store.filter (fun r =>
        decide (lowerL sorgu <:+: lowerL r.icerik) ||
        decide (lowerL sorgu <:+: lowerL r.etiketler)))).take 50 ∧
    (uzun_ara sorgu store).length ≤ 50 ∧
    (uzun_ara sorgu store).Pairwise
      (fun a b => b.onem < a.onem ∨ (a.onem = b.onem ∧ b.olusturma ≤ a.olusturma)) := by
  have hie : sorgu.isEmpty = false := by
    cases sorgu with
    | nil => exact absurd rfl hne
    | cons c cs => rfl
  have hsan : sanitize_sql_like sorgu = '%' :: (escL sorgu ++ ['%']) := by
    simp only [sanitize_sql_like, hie, Bool.false_eq_true, if_false, replace3_eq_escL]
  refine ⟨hsan, ?_, List.length_take_le 50 _, ?_⟩
  · show (sortBy rankLe (store.filter (fun r =>
        likeMatch (sanitize_sql_like sorgu) r.icerik ||
        likeMatch (sanitize_sql_like sorgu) r.etiketler))).take 50 = _
    rw [hsan]
    refine congrArg (List.take 50) (congrArg (sortBy rankLe) (List.filter_congr ?_))
    intro x _
    rw [likeMatch_wrapped, likeMatch_wrapped, subCI_eq_decide, subCI_eq_decide]
  · have hp := pairwise_sortBy rankLe rankLe_trans rankLe_total
      (store.filter (fun r =>
        likeMatch (sanitize_sql_like sorgu) r.icerik ||
        likeMatch (sanitize_sql_like sorgu) r.etiketler))
    have hs := List.Pairwise.sublist (List.take_sublist 50 _) hp
    exact hs.imp (fun hab => by simpa [rankLe] using hab)

/-- Witness for C6: a search for `"milk"` over a one-row store equals
the case-insensitive-substring specification of the query pipeline. -/
theorem c6_search_long_term_witness :
    uzun_ara "milk".toList [milkRow] =
      (sortBy rankLe ([milkRow].filter (fun r =>
        decide (lowerL "milk".toList <:+: lowerL r.icerik) ||
        decide (lowerL "milk".toList <:+: lowerL r.etiketler)))).take 50 :=
  (c6_search_long_term "milk".toList [milkRow] (by decide)).2.1

/-- Counterexample for C6 as stated: searching for `"MILK"` returns the
row whose content is `"milk for breakfast"` even though that content
does not contain `"MILK"` as a substring (LIKE folds ASCII case), and
the empty query is returned without the promised wildcard wrapping. -/
theorem c6_search_long_term_counterexample :
    uzun_ara "MILK".toList [milkRow] = [milkRow] ∧
    ¬ ("MILK".toList <:+: milkRow.icerik) ∧
    sanitize_sql_like [] = [] := by
  decide

/-- Claim C7 as amended: with a non-empty tag list, `uzun_getir`
concatenates one block per requested tag; for each tag free of LIKE
metacharacters, its block holds exactly the rows whose serialized tag
list contains the double-quoted tag `"tag"` as a substring up to ASCII
case, ordered by importance descending and capped at the limit. -/
theorem c7_by_tags (tags : List (List Char)) (limit : Nat) (store : List UzunRow)
    (hclean : ∀ tag ∈ tags, ∀ c ∈ tag, ¬(c = '\\' ∨ c = '%' ∨ c = '_'))
    (hne : tags ≠ []) :
    uzun_getir tags limit store =
      tags.flatMap (fun tag => uzun_getir [tag] limit store) ∧
    ∀ tag ∈ tags,
      uzun_getir [tag] limit store =
        (sortBy onemLe (store.filter (fun r =>
          decide (lowerL ('"' :: (tag ++ ['"'])) <:+: lowerL r.etiketler)))).take limit ∧
      (uzun_getir [tag] limit store).length ≤ limit ∧
      (uzun_getir [tag] limit store).Pairwise (fun a b => b.onem ≤ a.onem) := by
  have hie : tags.isEmpty = false := by
    cases tags with
    | nil => exact absurd rfl hne
    | cons a l => rfl
  have hblock : ∀ tag : List Char, uzun_getir [tag] limit store =
      (sortBy onemLe (store.filter (fun r =>
        likeMatch ('%' :: (('"' :: (tag ++ ['"'])) ++ ['%'])) r.etiketler))).take limit := by
    intro tag
    simp [uzun_getir]
  constructor
  · simp only [uzun_getir, hie, Bool.false_eq_true, if_false]
    refine List.flatMap_congr ?_
    intro tag _
    simp
  · intro tag htag
    have hcleantag := hclean tag htag
    have hq : ∀ c ∈ ('"' :: (tag ++ ['"'])), ¬(c = '\\' ∨ c = '%' ∨ c = '_') := by
      intro c hc
      rcases List.mem_cons.mp hc with rfl | hc2
      · decide
      · rcases List.mem_append.mp hc2 with hc3 | hc4
        · exact hcleantag c hc3
        · rcases List.mem_singleton.mp hc4 with rfl
          decide
    have hescq : escL ('"' :: (tag ++ ['"'])) = '"' :: (tag ++ ['"']) :=
      escL_of_clean _ hq
    refine ⟨?_, ?_, ?_⟩
    · rw [hblock tag]
      refine congrArg (List.take limit) (congrArg (sortBy onemLe) (List.filter_congr ?_))
      intro x _
      have hpat : ('%' :: (('"' :: (tag ++ ['"'])) ++ ['%'])) =
          '%' :: (escL ('"' :: (tag ++ ['"'])) ++ ['%']) := by rw [hescq]
      rw [hpat, likeMatch_wrapped, subCI_eq_decide]
    · rw [hblock tag]
      exact List.length_take_le limit _
    · rw [hblock tag]
      have hp := pairwise_sortBy onemLe onemLe_trans onemLe_total
        (store.filter (fun r =>
          likeMatch ('%' :: (('"' :: (tag ++ ['"'])) ++ ['%'])) r.etiketler))
      have hs := List.Pairwise.sublist (List.take_sublist limit _) hp
      exact hs.imp (fun hab => by simpa [onemLe] using hab)

/-- Witness for C7: requesting tag `"os"` over a store whose row carries
the stored tag list `["os"]` equals the quoted-substring specification. -/
theorem c7_by_tags_witness :
    uzun_getir ["os".toList] 50 [osRow] =
      (sortBy onemLe ([osRow].filter (fun r =>
        decide (lowerL ('"' :: ("os".toList ++ ['"'])) <:+: lowerL r.etiketler)))).take 50 :=
  (((c7_by_tags ["os".toList] 50 [osRow] (by decide) (by decide)).2)
    "os".toList (by decide)).1

/-- Counterexample for C7 as stated: the serialized tag representation
`["posix"]` contains the requested tag `"os"` as a substring, yet
`uzun_getir` yields nothing for it — the interpolated pattern wraps the
tag in double quotes, so `"os"` does not match a stored tag `"posix"`. -/
theorem c7_by_tags_counterexample :
    uzun_getir ["os".toList] 50 [posixRow] = [] ∧
    "os".toList <:+: posixRow.etiketler := by
  decide

/-- Claim C10: for a task id matching no stored row, `gorev_tamamla` and
`gorev_sil` return normally (both are total functions here, mirroring
the absence of any existence check or error path in the source) and
leave every stored task unchanged. -/
theorem c10_missing_task_id (now id : Nat) (store : List GorevRow)
    (h : ∀ r ∈ store, r.id ≠ id) :
    gorev_tamamla now id store = store ∧ gorev_sil id store = store := by
  constructor
  · unfold gorev_tamamla
    have hcongr : ∀ r ∈ store,
        (if r.id = id then
          { r with durum := "tamamlandi".toList, tamamlanma := some now }
         else r) = (fun r : GorevRow => r) r := fun r hr => by simp [h r hr]
    rw [List.map_congr_left hcongr]
    simp
  · unfold gorev_sil
    rw [List.filter_eq_self]
    intro r hr
    simpa using h r hr

/-- Witness for C10: completing and deleting task id 2 on a store that
only holds task id 1 changes nothing. -/
theorem c10_missing_task_id_witness :
    gorev_tamamla 9 2 [taskRow] = [taskRow] ∧ gorev_sil 2 [taskRow] = [taskRow] :=
  c10_missing_task_id 9 2 [taskRow] (by decide)

/-- Claim C1 (the code defeats it): the connection produced by
`_get_connection` has foreign-key enforcement off, so deleting session
`s1` after appending three messages leaves all three messages, and
`oturum_mesajlari` still returns them — whereas on a connection with
foreign keys enabled the cascade would leave none. -/
theorem c1_cascade_not_enforced :
    get_connection.foreign_keys = false ∧
    (delete_session get_connection "s1".toList c1_sessions c1_messages).2 =
      c1_messages ∧
    (oturum_mesajlari "s1".toList 100
      (delete_session get_connection "s1".toList c1_sessions c1_messages).2).length = 3 ∧
    (oturum_mesajlari "s1".toList 100
      (delete_session ⟨true⟩ "s1".toList c1_sessions c1_messages).2).length = 0 := by
  decide

/-- Claim C8 as amended: `powershell` truncates stripped stdout to 2000
characters on success and on failure returns text embedding the exit
code and the first 200 characters of stripped stderr; `opencode`
truncates the combined output to 1500 characters regardless of the exit
code. -/
theorem c8_command_output (r : ProcResult) :
    (r.returncode = 0 →
      powershell_result r = (pyStrip r.stdout).take 2000 ∧
      (powershell_result r).length ≤ 2000) ∧
    (r.returncode ≠ 0 →
      (toString r.returncode).toList <:+: powershell_result r ∧
      (pyStrip r.stderr).take 200 <:+: powershell_result r) ∧
    (opencode_result r).length ≤ 1500 ∧
    (r.stdout ++ r.stderr ≠ [] →
      opencode_result r = (r.stdout ++ r.stderr).take 1500) := by
  refine ⟨?_, ?_, ?_, ?_⟩
  · intro h0
    constructor
    · simp [powershell_result, h0]
    · simp only [powershell_result, h0]
      simp [List.length_take_le]
  · intro hne
    constructor
    · refine ⟨"Hata (kod ".toList,
        "): ".toList ++ (pyStrip r.stderr).take 200, ?_⟩
      simp [powershell_result, hne]
    · have hsuf : (pyStrip r.stderr).take 200 <:+
          "Hata (kod ".toList ++ (toString r.returncode).toList ++ "): ".toList ++
            (pyStrip r.stderr).take 200 := by
        simpa using List.suffix_append
          ("Hata (kod ".toList ++ (toString r.returncode).toList ++ "): ".toList)
          ((pyStrip r.stderr).take 200)
      have := hsuf.isInfix
      simpa [powershell_result, hne] using this
  · by_cases he : (r.stdout ++ r.stderr).isEmpty
    · simp [opencode_result, he]
    · simp only [opencode_result, he, if_false, Bool.false_eq_true]
      simp [List.length_take_le]
  · intro hne
    have he : (r.stdout ++ r.stderr).isEmpty = false := by
      simpa [List.isEmpty_iff] using hne
    simp [opencode_result, he]

/-- Witness for C8: a failing generic command embeds its exit code, and
a succeeding one returns the truncated stripped stdout. -/
theorem c8_command_output_witness :
    (toString (1 : Int)).toList <:+:
      powershell_result ⟨"".toList, "boom".toList, 1⟩ ∧
    powershell_result ⟨"ok".toList, "".toList, 0⟩ =
      (pyStrip "ok".toList).take 2000 :=
  ⟨((c8_command_output ⟨"".toList, "boom".toList, 1⟩).2.1 (by decide)).1,
   ((c8_command_output ⟨"ok".toList, "".toList, 0⟩).1 (by decide)).1⟩

/-- Counterexample for C8 as stated: an agent-CLI subprocess that exits
with code 1 gets its combined output returned verbatim (truncated), with
the exit code appearing nowhere in the result — the non-zero exit path of
the claim does not hold for the agent-CLI kind. -/
theorem c8_command_output_counterexample :
    opencode_result ⟨"x".toList, "err".toList, 1⟩ = "xerr".toList ∧
    ¬ ((toString (1 : Int)).toList <:+:
        opencode_result ⟨"x".toList, "err".toList, 1⟩) := by
  decide

end YerelAsistan
